import Mathlib

/-!
Verification development for the Confidex backend: a meeting session
manager and WebRTC signaling relay.  The in-memory Session Registry
(`roomManager`), the socket event handlers (`socketHandlers.ts`) and the
HTTP meeting routes (`routes/meeting.ts`, backed by a PostgreSQL
database) are embedded as pure Lean functions over explicit state.
-/

namespace Confidex

/-! ## Session Registry (roomManager module)

The JavaScript module keeps a global object `rooms` mapping a room id to
an array of socket ids.  A JavaScript object has unique keys and
preserves insertion order, so we embed it as an association list with
first-match lookup; assignment replaces the first (unique) matching key
or appends a fresh key at the end. -/

abbrev Rooms := List (String × List String)

/-- Lookup `rooms[roomId]`: `none` plays the role of `undefined`. -/
def getRoom (rooms : Rooms) (roomId : String) : Option (List String) :=
  (rooms.find? (fun p => p.1 == roomId)).map Prod.snd

/-- Assignment `rooms[roomId] = v` on a unique-key object. -/
def setRoom : Rooms → String → List String → Rooms
  | [], roomId, v => [(roomId, v)]
  | p :: rest, roomId, v =>
    if p.1 == roomId then (p.1, v) :: rest else p :: setRoom rest roomId v

/-- `addUserToRoom(roomId, socketId)`: initialise the room to `[]` when
absent, push `socketId`, and return the array filtered to exclude
`socketId` (the "other users" list).  Returns the pair
(returned list, updated rooms map). -/
def addUserToRoom (roomId socketId : String) (rooms : Rooms) :
    List String × Rooms :=
  let cur := (getRoom rooms roomId).getD []
  let upd := cur ++ [socketId]
  (upd.filter (fun id => id != socketId), setRoom rooms roomId upd)

/-- `removeUserFromRoom(socketId)`: for every room id in the map, filter
the socket id out of that room's array.  Keys are never deleted. -/
def removeUserFromRoom (socketId : String) (rooms : Rooms) : Rooms :=
  rooms.map (fun p => (p.1, p.2.filter (fun id => id != socketId)))

/-- `getRooms()` exposes the map itself. -/
def getRooms (rooms : Rooms) : Rooms := rooms

/-- Keys of the rooms object. -/
def roomKeys (rooms : Rooms) : List String := rooms.map Prod.fst

/-- Number of occurrences of a socket id in a room's array. -/
def roomOcc (rooms : Rooms) (roomId socketId : String) : Nat :=
  ((getRoom rooms roomId).getD []).count socketId

/-! ## Socket layer state

`SigState` carries the set of currently connected socket ids, the
socket.io adapter rooms (`socket.join` inserts with set semantics), and
the roomManager map above.  socket.io additionally places every
connected socket in an adapter room named by its own id; `ioTo` models
`io.to(name).emit` accordingly. -/

structure SigState where
  connected : List String
  ioRooms : Rooms
  rooms : Rooms
deriving DecidableEq

/-- Members of a socket.io adapter room (meeting rooms only; the
per-socket own-id rooms are accounted for in `ioTo`). -/
def ioRoomMembers (ioRooms : Rooms) (name : String) : List String :=
  (getRoom ioRooms name).getD []

/-- `socket.join(room)`: set-semantics insert into the adapter room. -/
def ioJoin (ioRooms : Rooms) (name socketId : String) : Rooms :=
  let cur := ioRoomMembers ioRooms name
  if cur.contains socketId then ioRooms else setRoom ioRooms name (cur ++ [socketId])

/-- socket.io removes a disconnecting socket from every adapter room. -/
def ioLeaveAll (ioRooms : Rooms) (socketId : String) : Rooms :=
  ioRooms.map (fun p => (p.1, p.2.filter (fun id => id != socketId)))

/-- Recipients of `io.to(name).emit`: the socket whose id is `name`
(every connected socket sits in its own-id adapter room) together with
the members of any adapter room called `name`. -/
def ioTo (st : SigState) (name : String) : List String :=
  (if st.connected.contains name then [name] else []) ++ ioRoomMembers st.ioRooms name

/-- The `join-room` handler: `socket.join(roomId)`, then
`addUserToRoom`, emitting the returned "other users" list back to the
joining socket.  Returns (new state, peer list emitted as `all-users`). -/
def joinRoom (st : SigState) (socketId roomId : String) : SigState × List String :=
  let r := addUserToRoom roomId socketId st.rooms
  ({ connected := st.connected, ioRooms := ioJoin st.ioRooms roomId socketId,
     rooms := r.2 }, r.1)

/-- The `disconnect` handler: the transport closes the socket, socket.io
evicts it from every adapter room, and the handler calls
`removeUserFromRoom(socket.id)`. -/
def disconnectSocket (st : SigState) (socketId : String) : SigState :=
  { connected := st.connected.filter (fun id => id != socketId),
    ioRooms := ioLeaveAll st.ioRooms socketId,
    rooms := removeUserFromRoom socketId st.rooms }

/-! ## Point-to-point signaling relay -/

/-- Inbound payload of an `offer` / `answer` / `ice-candidate` event:
a target connection id, the relayed content (`sdp` stands for the
sdp/candidate field), and an optional caller field the client may have
set itself. -/
structure SignalPayload where
  target : String
  sdp : String
  caller : Option String
deriving DecidableEq

/-- Delivered signaling event after `\x7b...payload, caller: socket.id\x7d`:
the spread keeps `target` and `sdp`, and `caller` is overwritten with
the sender's socket id. -/
structure SignalOut where
  target : String
  sdp : String
  caller : String
deriving DecidableEq

/-- The `offer` / `answer` / `ice-candidate` handlers all perform
`io.to(payload.target).emit(kind, \x7b...payload, caller: socket.id\x7d)`.
Returns the list of (recipient, delivered event) pairs. -/
def relaySignal (st : SigState) (sender : String) (p : SignalPayload) :
    List (String × SignalOut) :=
  (ioTo st p.target).map (fun tgt => (tgt, ⟨p.target, p.sdp, sender⟩))

/-! ## Screen-sharing broadcast -/

/-- Inbound payload of a screen-sharing event: the room id it names and
an optional `userId` field of its own. -/
structure ScreenShareData where
  roomId : String
  userId : Option String
deriving DecidableEq

/-- Delivered screen-sharing event built by
`\x7buserId: socket.id, ...data\x7d`: the spread comes second, so a
`userId` field carried by the payload overrides the sender's id. -/
structure ScreenShareOut where
  userId : String
  roomId : String
deriving DecidableEq

/-- The `screen-sharing-started` / `screen-sharing-stopped` handlers:
`socket.to(data.roomId).emit(kind, \x7buserId: socket.id, ...data\x7d)` —
broadcast to the adapter room named in the payload, excluding the
sender. -/
def handleScreenShare (st : SigState) (sender : String) (d : ScreenShareData) :
    List (String × ScreenShareOut) :=
  ((ioRoomMembers st.ioRooms d.roomId).filter (fun x => x != sender)).map
    (fun tgt => (tgt, ⟨d.userId.getD sender, d.roomId⟩))

/-! ## Registry operation traces (for persistence of keys) -/

/-- The only two operations the socket layer ever applies to the
roomManager map. -/
inductive RegistryOp
  | joinOp (roomId socketId : String)
  | disconnectOp (socketId : String)

/-- Apply one registry operation. -/
def applyOp (rooms : Rooms) : RegistryOp → Rooms
  | .joinOp roomId socketId => (addUserToRoom roomId socketId rooms).2
  | .disconnectOp socketId => removeUserFromRoom socketId rooms

/-- Apply a sequence of registry operations. -/
def applyOps (rooms : Rooms) (ops : List RegistryOp) : Rooms :=
  ops.foldl applyOp rooms

/-! ## Meeting Directory (PostgreSQL tables used by routes/meeting.ts)

Rows of the `meetings` and `meeting_participants` tables, restricted to
the columns the meeting routes read or write.  `meeting_participants`
carries a UNIQUE(meeting_id, user_id) constraint, which is what
`ON CONFLICT (meeting_id, user_id) DO NOTHING` keys on. -/

structure Meeting where
  id : String
  hostId : Nat
  title : String
  status : String
  maxParticipants : Int
  endedAt : Option Nat
deriving DecidableEq

structure Participant where
  meetingId : String
  userId : Nat
  socketId : Option String
  leftAt : Option Nat
deriving DecidableEq

structure DB where
  meetings : List Meeting
  participants : List Participant
deriving DecidableEq

/-- `SELECT ... FROM meetings m WHERE m.id = $1` (rows[0]). -/
def findMeeting (db : DB) (meetingId : String) : Option Meeting :=
  db.meetings.find? (fun mt => mt.id == meetingId)

/-- `SELECT COUNT(*) FROM meeting_participants WHERE meeting_id = $1 AND
left_at IS NULL`. -/
def countActive (db : DB) (meetingId : String) : Nat :=
  db.participants.countP (fun p => p.meetingId == meetingId && p.leftAt.isNone)

/-- Whether a row for (meeting_id, user_id) exists, active or left. -/
def hasRecord (db : DB) (meetingId : String) (userId : Nat) : Bool :=
  db.participants.any (fun p => p.meetingId == meetingId && p.userId == userId)

/-- `INSERT INTO meeting_participants (meeting_id, user_id) VALUES ($1,$2)
ON CONFLICT (meeting_id, user_id) DO NOTHING`: inserts a fresh row with
NULL socket_id and NULL left_at, or leaves the table untouched when a
row for the pair already exists (whether active or already left). -/
def insertParticipantDoNothing (db : DB) (meetingId : String) (userId : Nat) : DB :=
  if hasRecord db meetingId userId then db
  else { db with participants := db.participants ++ [⟨meetingId, userId, none, none⟩] }

/-- Outcome of `POST /join/:meetingId` after authentication: the 404,
400 "Meeting has ended", 400 "Meeting is full" branches, or the 200
authorization response carrying `isHost`. -/
inductive JoinResult
  | notFound
  | meetingEnded
  | full
  | authorized (isHost : Bool)
deriving DecidableEq

/-- The `POST /join/:meetingId` handler: look the meeting up together
with its live participant count, reject when absent / ended / full, and
otherwise insert the participant row (DO NOTHING on conflict) and reply
authorized with `isHost = (meeting.host_id === req.userId)`. -/
def joinMeeting (db : DB) (userId : Nat) (meetingId : String) : JoinResult × DB :=
  match findMeeting db meetingId with
  | none => (.notFound, db)
  | some mt =>
    if mt.status == "ended" then (.meetingEnded, db)
    else if (countActive db meetingId : Int) ≥ mt.maxParticipants then (.full, db)
    else (.authorized (mt.hostId == userId),
          insertParticipantDoNothing db meetingId userId)

/-- Outcome of `POST /end/:meetingId` after authentication. -/
inductive EndResult
  | notFound
  | notHost
  | ok
deriving DecidableEq

/-- The `POST /end/:meetingId` handler: re-read host_id, 403 unless the
requester is the host, then set the meeting's status to ended with
ended_at = NOW(), and set left_at = NOW() on every row of the meeting
whose left_at IS NULL. -/
def endMeeting (db : DB) (requesterId : Nat) (meetingId : String) (now : Nat) :
    EndResult × DB :=
  match findMeeting db meetingId with
  | none => (.notFound, db)
  | some mt =>
    if mt.hostId == requesterId then
      (.ok,
       { meetings := db.meetings.map (fun x =>
           if x.id == meetingId then { x with status := "ended", endedAt := some now }
           else x),
         participants := db.participants.map (fun p =>
           if p.meetingId == meetingId && p.leftAt.isNone then { p with leftAt := some now }
           else p) })
    else (.notHost, db)

/-- Outcome of `POST /kick/:meetingId/:userId` after authentication. -/
inductive KickResult
  | notFound
  | notHost
  | ok
deriving DecidableEq

/-- The `POST /kick/:meetingId/:userId` handler: re-read host_id from
the meetings table at kick time, 403 unless the requester is the host,
then set left_at = NOW() on the (meeting_id, user_id) rows. -/
def kickParticipant (db : DB) (requesterId : Nat) (meetingId : String)
    (targetUserId : Nat) (now : Nat) : KickResult × DB :=
  match findMeeting db meetingId with
  | none => (.notFound, db)
  | some mt =>
    if mt.hostId == requesterId then
      (.ok,
       { db with participants := db.participants.map (fun p =>
           if p.meetingId == meetingId && p.userId == targetUserId then
             { p with leftAt := some now }
           else p) })
    else (.notHost, db)

/-! ## Whole-system state

The HTTP route handlers run in the Express process and have no access
to the socket layer: they only issue SQL.  `SysState` pairs the durable
database with the in-memory socket state so that this separation can be
stated; the route embeddings below pass the socket state through
untouched and emit no socket events, exactly as the handlers do. -/

structure SysState where
  db : DB
  sig : SigState
deriving DecidableEq

/-- `POST /end/:meetingId` at the system level: the database transition
of `endMeeting`, the socket state unchanged, and the list of
(recipient, event) notifications sent over sockets — empty, because the
handler sends none. -/
def endMeetingSys (sys : SysState) (requesterId : Nat) (meetingId : String)
    (now : Nat) : (EndResult × SysState) × List (String × String) :=
  let r := endMeeting sys.db requesterId meetingId now
  ((r.1, { db := r.2, sig := sys.sig }), [])

/-- `POST /kick/:meetingId/:userId` at the system level: database
transition only; the socket state is untouched. -/
def kickSys (sys : SysState) (requesterId : Nat) (meetingId : String)
    (targetUserId : Nat) (now : Nat) : KickResult × SysState :=
  let r := kickParticipant sys.db requesterId meetingId targetUserId now
  (r.1, { db := r.2, sig := sys.sig })

/-! ## Helper lemmas about the Session Registry -/

theorem getRoom_setRoom_self (rooms : Rooms) (roomId : String) (v : List String) :
    getRoom (setRoom rooms roomId v) roomId = some v := by
  induction rooms with
  | nil => simp [setRoom, getRoom]
  | cons p rest ih =>
    by_cases h : p.1 == roomId
    · simp [setRoom, getRoom, h]
    · simpa [setRoom, getRoom, h] using ih

theorem mem_roomKeys_setRoom (rooms : Rooms) (roomId k : String) (v : List String)
    (h : k ∈ roomKeys rooms) : k ∈ roomKeys (setRoom rooms roomId v) := by
  induction rooms with
  | nil => simp [roomKeys] at h
  | cons p rest ih =>
    by_cases hp : p.1 == roomId
    · simpa [setRoom, roomKeys, hp] using h
    · simp only [roomKeys, List.map_cons, List.mem_cons] at h
      rcases h with h | h
      · simp [setRoom, roomKeys, hp, h]
      · have hstep : setRoom (p :: rest) roomId v = p :: setRoom rest roomId v := by
          simp [setRoom, hp]
        rw [hstep]
        show k ∈ p.1 :: roomKeys (setRoom rest roomId v)
        exact List.mem_cons.2 (Or.inr (ih h))

theorem mem_roomKeys_setRoom_self (rooms : Rooms) (roomId : String) (v : List String) :
    roomId ∈ roomKeys (setRoom rooms roomId v) := by
  induction rooms with
  | nil => simp [setRoom, roomKeys]
  | cons p rest ih =>
    by_cases hp : p.1 == roomId
    · have : p.1 = roomId := by simpa using hp
      simp [setRoom, roomKeys, hp, this]
    · have hstep : setRoom (p :: rest) roomId v = p :: setRoom rest roomId v := by
        simp [setRoom, hp]
      rw [hstep]
      show roomId ∈ p.1 :: roomKeys (setRoom rest roomId v)
      exact List.mem_cons.2 (Or.inr ih)

theorem roomKeys_removeUserFromRoom (socketId : String) (rooms : Rooms) :
    roomKeys (removeUserFromRoom socketId rooms) = roomKeys rooms := by
  simp [roomKeys, removeUserFromRoom, List.map_map, Function.comp]

theorem mem_roomKeys_applyOp (k : String) (rooms : Rooms) (op : RegistryOp)
    (h : k ∈ roomKeys rooms) : k ∈ roomKeys (applyOp rooms op) := by
  cases op with
  | joinOp roomId socketId =>
    exact mem_roomKeys_setRoom rooms roomId k _ h
  | disconnectOp socketId =>
    rw [applyOp, roomKeys_removeUserFromRoom]
    exact h

theorem mem_roomKeys_applyOps (k : String) (rooms : Rooms) (ops : List RegistryOp)
    (h : k ∈ roomKeys rooms) : k ∈ roomKeys (applyOps rooms ops) := by
  induction ops generalizing rooms with
  | nil => exact h
  | cons op ops ih => exact ih _ (mem_roomKeys_applyOp k rooms op h)

/-! ## Helper lemmas about the Meeting Directory operations -/

theorem countActive_insert_le (db : DB) (m : String) (u : Nat) :
    countActive (insertParticipantDoNothing db m u) m ≤ countActive db m + 1 := by
  unfold insertParticipantDoNothing
  split
  · exact Nat.le_succ _
  · show List.countP _ (db.participants ++ [⟨m, u, none, none⟩]) ≤ _
    rw [List.countP_append]
    have hone : List.countP (fun p => p.meetingId == m && p.leftAt.isNone)
        [(⟨m, u, none, none⟩ : Participant)] ≤ 1 := by
      simp [List.countP_cons]
    exact Nat.add_le_add_left hone _

theorem hasRecord_insert (db : DB) (m : String) (u : Nat) :
    hasRecord (insertParticipantDoNothing db m u) m u = true := by
  unfold insertParticipantDoNothing
  split
  · assumption
  · simp [hasRecord, List.any_append]

theorem joinMeeting_none (db : DB) (u : Nat) (m : String)
    (hfind : findMeeting db m = none) : joinMeeting db u m = (.notFound, db) := by
  unfold joinMeeting
  rw [hfind]

theorem joinMeeting_some (db : DB) (u : Nat) (m : String) (mt : Meeting)
    (hfind : findMeeting db m = some mt) :
    joinMeeting db u m =
      (if mt.status == "ended" then (.meetingEnded, db)
       else if (countActive db m : Int) ≥ mt.maxParticipants then (.full, db)
       else (.authorized (mt.hostId == u), insertParticipantDoNothing db m u)) := by
  unfold joinMeeting
  rw [hfind]

/-! ## Claim theorems -/

/-- C1: capacity bound of the join path.  For a meeting on record, the
join request fails with the "Meeting is full" result whenever the live
participant count (rows with left_at NULL) is at least
`maxParticipants` (the ended check running first), and immediately
after any join that completes with an authorized result the live
participant count of the meeting is at most `maxParticipants`. -/
theorem joinMeeting_capacity (db : DB) (u : Nat) (m : String) (mt : Meeting) (b : Bool)
    (hfind : findMeeting db m = some mt) :
    (mt.status ≠ "ended" → (countActive db m : Int) ≥ mt.maxParticipants →
      (joinMeeting db u m).1 = .full) ∧
    ((joinMeeting db u m).1 = .authorized b →
      (countActive (joinMeeting db u m).2 m : Int) ≤ mt.maxParticipants) := by
  have hj := joinMeeting_some db u m mt hfind
  constructor
  · intro hne hge
    rw [hj, if_neg (by simpa using hne), if_pos hge]
  · intro hauth
    by_cases h1 : (mt.status == "ended") = true
    · rw [hj, if_pos h1] at hauth
      exact absurd hauth (by simp)
    · by_cases h2 : (countActive db m : Int) ≥ mt.maxParticipants
      · rw [hj, if_neg h1, if_pos h2] at hauth
        exact absurd hauth (by simp)
      · rw [hj, if_neg h1, if_neg h2]
        show (countActive (insertParticipantDoNothing db m u) m : Int) ≤ mt.maxParticipants
        have hle := countActive_insert_le db m u
        omega

/-- Witness for `joinMeeting_capacity`: a 1-seat meeting with one live
participant rejects a further join as full, and a join into an empty
10-seat meeting keeps the live count within the bound. -/
theorem joinMeeting_capacity_witness :
    (joinMeeting ⟨[⟨"m", 1, "t", "active", 1, none⟩], [⟨"m", 1, none, none⟩]⟩ 2 "m").1
        = .full ∧
    (countActive (joinMeeting ⟨[⟨"m", 1, "t", "active", 10, none⟩], []⟩ 2 "m").2 "m" : Int)
        ≤ 10 :=
  ⟨(joinMeeting_capacity _ 2 "m" ⟨"m", 1, "t", "active", 1, none⟩ true (by decide)).1
      (by decide) (by decide),
   (joinMeeting_capacity _ 2 "m" ⟨"m", 1, "t", "active", 10, none⟩ false (by decide)).2
      (by decide)⟩

/-- C2 counterexample: user 2 is not the host of meeting "m" and has no
participant record for it, yet the join request succeeds (no
NotAuthorized outcome) and a participant record is created. -/
theorem join_admits_non_host_cex :
    hasRecord ⟨[⟨"m", 1, "t", "active", 10, none⟩], []⟩ "m" 2 = false ∧
    (1 : Nat) ≠ 2 ∧
    (joinMeeting ⟨[⟨"m", 1, "t", "active", 10, none⟩], []⟩ 2 "m").1 = .authorized false ∧
    (joinMeeting ⟨[⟨"m", 1, "t", "active", 10, none⟩], []⟩ 2 "m").2.participants
        = [⟨"m", 2, none, none⟩] := by
  decide

/-- C2 (amended): the join path performs no host or participant-record
authorization check at all.  Every authenticated user whose request
passes the existence, non-ended and non-full checks is admitted — host
identity only determines the isHost flag of the response — and a
participant record for (meeting, user) exists afterwards. -/
theorem joinMeeting_no_authorization (db : DB) (u : Nat) (m : String) (mt : Meeting)
    (hfind : findMeeting db m = some mt) (hne : mt.status ≠ "ended")
    (hlt : (countActive db m : Int) < mt.maxParticipants) :
    (joinMeeting db u m).1 = .authorized (mt.hostId == u) ∧
    hasRecord (joinMeeting db u m).2 m u = true := by
  rw [joinMeeting_some db u m mt hfind, if_neg (by simpa using hne),
    if_neg (not_le.mpr hlt)]
  exact ⟨rfl, hasRecord_insert db m u⟩

/-- Witness for `joinMeeting_no_authorization`: user 9, neither host nor
pre-recorded, is admitted to meeting "m" hosted by user 7. -/
theorem joinMeeting_no_authorization_witness :
    (joinMeeting ⟨[⟨"m", 7, "t", "active", 3, none⟩], []⟩ 9 "m").1
        = .authorized ((7 : Nat) == 9) ∧
    hasRecord (joinMeeting ⟨[⟨"m", 7, "t", "active", 3, none⟩], []⟩ 9 "m").2 "m" 9 = true :=
  joinMeeting_no_authorization _ 9 "m" ⟨"m", 7, "t", "active", 3, none⟩
    (by decide) (by decide) (by decide)

/-- C6 counterexample: user 2 previously left meeting "m" (left_at = 3).
Re-joining succeeds, but the participant record is left exactly as it
was: left_at is still 3 (not cleared) and no connection id is attached. -/
theorem rejoin_left_record_unchanged_cex :
    (joinMeeting ⟨[⟨"m", 1, "t", "active", 10, none⟩], [⟨"m", 2, none, some 3⟩]⟩ 2 "m").1
        = .authorized false ∧
    (joinMeeting ⟨[⟨"m", 1, "t", "active", 10, none⟩], [⟨"m", 2, none, some 3⟩]⟩ 2 "m").2.participants
        = [⟨"m", 2, none, some 3⟩] := by
  decide

/-- C6 (amended): the join insert is ON CONFLICT DO NOTHING, not an
upsert.  When a record for (meeting, user) already exists — active or
left — the participant table is unchanged (no reactivation, no cleared
leave timestamp, no connection id); only when no record exists is a
fresh row with NULL socket_id and NULL left_at appended. -/
theorem joinMeeting_record_no_update (db : DB) (u : Nat) (m : String) :
    (hasRecord db m u = true → (joinMeeting db u m).2.participants = db.participants) ∧
    (∀ b : Bool, hasRecord db m u = false → (joinMeeting db u m).1 = .authorized b →
      (joinMeeting db u m).2.participants = db.participants ++ [⟨m, u, none, none⟩]) := by
  constructor
  · intro hrec
    cases hfm : findMeeting db m with
    | none => rw [joinMeeting_none db u m hfm]
    | some mt =>
      rw [joinMeeting_some db u m mt hfm]
      by_cases h1 : (mt.status == "ended") = true
      · rw [if_pos h1]
      · by_cases h2 : (countActive db m : Int) ≥ mt.maxParticipants
        · rw [if_neg h1, if_pos h2]
        · rw [if_neg h1, if_neg h2]
          show (insertParticipantDoNothing db m u).participants = db.participants
          unfold insertParticipantDoNothing
          rw [if_pos hrec]
  · intro b hrec hauth
    cases hfm : findMeeting db m with
    | none =>
      rw [joinMeeting_none db u m hfm] at hauth
      exact absurd hauth (by simp)
    | some mt =>
      rw [joinMeeting_some db u m mt hfm] at hauth ⊢
      by_cases h1 : (mt.status == "ended") = true
      · rw [if_pos h1] at hauth
        exact absurd hauth (by simp)
      · by_cases h2 : (countActive db m : Int) ≥ mt.maxParticipants
        · rw [if_neg h1, if_pos h2] at hauth
          exact absurd hauth (by simp)
        · rw [if_neg h1, if_neg h2]
          show (insertParticipantDoNothing db m u).participants = _
          unfold insertParticipantDoNothing
          rw [if_neg (by simp [hrec])]

/-- C3 counterexample: sockets A and B are connected but B has joined no
meeting, so the Session Registry (the roomManager map) is empty — yet an
offer targeted at B is delivered to B.  Delivery is keyed on the
transport connection, not on Session Registry membership. -/
theorem relay_delivers_unregistered_target_cex :
    getRooms (SigState.mk ["A", "B"] [] []).rooms = [] ∧
    relaySignal ⟨["A", "B"], [], []⟩ "A" ⟨"B", "x", none⟩
        = [("B", ⟨"B", "x", "A"⟩)] := by
  decide

/-- C3 (amended): a point-to-point signaling message with target B is
delivered exactly once to B, with the payload fields preserved and the
caller field stamped with the sender's id, precisely when B's socket is
currently connected (assuming no meeting room shares B's name) — and it
is silently dropped, with no event to anyone, when B is not connected.
Session Registry membership plays no role. -/
theorem relaySignal_connected_iff (st : SigState) (sender : String) (p : SignalPayload)
    (hnm : ioRoomMembers st.ioRooms p.target = []) :
    (st.connected.contains p.target = true →
      relaySignal st sender p = [(p.target, ⟨p.target, p.sdp, sender⟩)]) ∧
    (st.connected.contains p.target = false → relaySignal st sender p = []) := by
  unfold relaySignal ioTo
  rw [hnm]
  constructor
  · intro h
    have h' : p.target ∈ st.connected := by simpa using h
    simp [h']
  · intro h
    have h' : p.target ∉ st.connected := by simpa using h
    simp [h']

/-- Witness for `relaySignal_connected_iff`: delivery to a connected
target, and a silent drop for a disconnected one. -/
theorem relaySignal_connected_iff_witness :
    relaySignal ⟨["A", "B"], [], []⟩ "A" ⟨"B", "y", none⟩ = [("B", ⟨"B", "y", "A"⟩)] ∧
    relaySignal ⟨["A"], [], []⟩ "A" ⟨"B", "y", none⟩ = [] :=
  ⟨(relaySignal_connected_iff ⟨["A", "B"], [], []⟩ "A" ⟨"B", "y", none⟩ (by decide)).1
      (by decide),
   (relaySignal_connected_iff ⟨["A"], [], []⟩ "A" ⟨"B", "y", none⟩ (by decide)).2
      (by decide)⟩

/-- C4: after a disconnect, the disconnecting connection id appears in
no room entry of the roomManager map — every occurrence is filtered out
of every room's array. -/
theorem disconnect_purges_rooms (st : SigState) (socketId : String)
    (e : String × List String) (he : e ∈ (disconnectSocket st socketId).rooms) :
    socketId ∉ e.2 := by
  unfold disconnectSocket removeUserFromRoom at he
  rcases List.mem_map.1 he with ⟨p, _, rfl⟩
  intro hmem
  rcases List.mem_filter.1 hmem with ⟨_, hbne⟩
  simp at hbne

/-- Witness for `disconnect_purges_rooms`: socket "a" disconnects from a
registry where it was the sole member of room "m". -/
theorem disconnect_purges_rooms_witness : "a" ∉ (("m", ([] : List String))).2 :=
  disconnect_purges_rooms ⟨["a"], [("m", ["a"])], [("m", ["a"])]⟩ "a" ("m", [])
    (by decide)

/-- C5 counterexample: socket "a" joins meeting "m" twice with no
intervening leave.  The second join returns the same (empty) peer list,
but the registry array for "m" now holds "a" twice — the second join is
neither a registry no-op nor rejected. -/
theorem join_twice_duplicate_cex :
    (joinRoom (joinRoom ⟨[], [], []⟩ "a" "m").1 "a" "m").2
        = (joinRoom ⟨[], [], []⟩ "a" "m").2 ∧
    (joinRoom ⟨[], [], []⟩ "a" "m").1.rooms = [("m", ["a"])] ∧
    (joinRoom (joinRoom ⟨[], [], []⟩ "a" "m").1 "a" "m").1.rooms
        = [("m", ["a", "a"])] := by
  decide

/-- C5 (amended): a double join is deterministic; the second join
returns exactly the peer list of the first, but appends a duplicate of
the connection id to the meeting's registry array (its occurrence count
increases by one from at least one), so it is neither a no-op on the
registry nor rejected. -/
theorem join_twice_same_peers_duplicate (st : SigState) (s r : String) :
    (joinRoom (joinRoom st s r).1 s r).2 = (joinRoom st s r).2 ∧
    1 ≤ roomOcc (joinRoom st s r).1.rooms r s ∧
    roomOcc (joinRoom (joinRoom st s r).1 s r).1.rooms r s
      = roomOcc (joinRoom st s r).1.rooms r s + 1 := by
  have hg1 : getRoom (joinRoom st s r).1.rooms r
      = some ((getRoom st.rooms r).getD [] ++ [s]) :=
    getRoom_setRoom_self st.rooms r _
  refine ⟨?_, ?_, ?_⟩
  · show ((getRoom (joinRoom st s r).1.rooms r).getD [] ++ [s]).filter (fun id => id != s)
        = ((getRoom st.rooms r).getD [] ++ [s]).filter (fun id => id != s)
    rw [hg1]
    simp [List.filter_append]
  · show 1 ≤ ((getRoom (joinRoom st s r).1.rooms r).getD []).count s
    rw [hg1]
    simp [List.count_append]
  · show ((getRoom (joinRoom (joinRoom st s r).1 s r).1.rooms r).getD []).count s
        = ((getRoom (joinRoom st s r).1.rooms r).getD []).count s + 1
    have hg2 : getRoom (joinRoom (joinRoom st s r).1 s r).1.rooms r
        = some (((getRoom st.rooms r).getD [] ++ [s]) ++ [s]) := by
      show getRoom (setRoom (joinRoom st s r).1.rooms r
          ((getRoom (joinRoom st s r).1.rooms r).getD [] ++ [s])) r = _
      rw [hg1]
      exact getRoom_setRoom_self _ r _
    rw [hg1, hg2]
    simp [List.count_append]

/-- C9 counterexample: socket "a" sends a screen-sharing event whose
payload carries its own userId field "z".  The event delivered to "b"
is tagged "z", not the sender's id "a" — the payload overrides the
sender tag because the handler spreads the data after it. -/
theorem screen_share_user_tag_override_cex :
    handleScreenShare ⟨["a", "b"], [("m", ["a", "b"])], [("m", ["a", "b"])]⟩ "a"
        ⟨"m", some "z"⟩ = [("b", ⟨"z", "m"⟩)] ∧
    "z" ≠ "a" := by
  decide

/-- C9 (amended): a screen-sharing event is delivered exactly to the
other connections of the socket.io room named by the payload's roomId
field, and the delivered userId tag is the sender's connection id only
when the payload carries no userId of its own — a payload-supplied
userId overrides the sender's id. -/
theorem screenShare_broadcast (st : SigState) (sender : String) (d : ScreenShareData)
    (x : String) (e : ScreenShareOut) :
    (x, e) ∈ handleScreenShare st sender d ↔
      (x ∈ ioRoomMembers st.ioRooms d.roomId ∧ x ≠ sender ∧
        e = ⟨d.userId.getD sender, d.roomId⟩) := by
  unfold handleScreenShare
  constructor
  · intro hx
    rcases List.mem_map.1 hx with ⟨y, hy, heq⟩
    rcases List.mem_filter.1 hy with ⟨hmem, hbne⟩
    have hxy : y = x := congrArg Prod.fst heq
    subst hxy
    refine ⟨hmem, by simpa using hbne, (congrArg Prod.snd heq).symm⟩
  · rintro ⟨hmem, hne, rfl⟩
    exact List.mem_map.2 ⟨x, List.mem_filter.2 ⟨hmem, by simpa using hne⟩, rfl⟩

/-- Witness for `screenShare_broadcast`: without a payload userId the
event delivered to "b" carries the sender "a" as its tag. -/
theorem screenShare_broadcast_witness :
    ("b", (⟨"a", "m"⟩ : ScreenShareOut)) ∈
      handleScreenShare ⟨["a", "b"], [("m", ["a", "b"])], [("m", ["a", "b"])]⟩ "a"
        ⟨"m", none⟩ :=
  (screenShare_broadcast ⟨["a", "b"], [("m", ["a", "b"])], [("m", ["a", "b"])]⟩ "a"
      ⟨"m", none⟩ "b" ⟨"a", "m"⟩).mpr (by decide)

/-- C10: once `addUserToRoom` has created a room key, the key persists
under any further sequence of join and disconnect operations and is
still exposed by `getRooms` — `removeUserFromRoom` only filters room
arrays and never deletes a key, so a room whose last member left
survives as a key holding an empty array. -/
theorem room_keys_persist (rooms : Rooms) (roomId socketId : String)
    (ops : List RegistryOp) :
    roomId ∈ roomKeys (getRooms (applyOps (addUserToRoom roomId socketId rooms).2 ops)) ∧
    getRoom (removeUserFromRoom socketId (addUserToRoom roomId socketId []).2) roomId
      = some [] := by
  refine ⟨mem_roomKeys_applyOps roomId _ ops (mem_roomKeys_setRoom_self rooms roomId _), ?_⟩
  simp [addUserToRoom, removeUserFromRoom, setRoom, getRoom]

/-- Witness for `joinMeeting_record_no_update`: the left record of the
C6 counterexample state stays untouched, and a fresh join into an empty
table appends the new row. -/
theorem joinMeeting_record_no_update_witness :
    (joinMeeting ⟨[⟨"m", 1, "t", "active", 10, none⟩], [⟨"m", 2, none, some 3⟩]⟩ 2 "m").2.participants
        = [⟨"m", 2, none, some 3⟩] ∧
    (joinMeeting ⟨[⟨"m", 1, "t", "active", 10, none⟩], []⟩ 2 "m").2.participants
        = [] ++ [⟨"m", 2, none, none⟩] :=
  ⟨(joinMeeting_record_no_update _ 2 "m").1 (by decide),
   (joinMeeting_record_no_update _ 2 "m").2 false (by decide) (by decide)⟩

theorem endMeeting_some (db : DB) (requesterId : Nat) (meetingId : String) (now : Nat)
    (mt : Meeting) (hfind : findMeeting db meetingId = some mt) :
    endMeeting db requesterId meetingId now =
      (if mt.hostId == requesterId then
        (.ok,
         ⟨db.meetings.map (fun x =>
            if x.id == meetingId then { x with status := "ended", endedAt := some now }
            else x),
          db.participants.map (fun p =>
            if p.meetingId == meetingId && p.leftAt.isNone then { p with leftAt := some now }
            else p)⟩)
       else (.notHost, db)) := by
  unfold endMeeting
  rw [hfind]

/-- C7 counterexample: host 1 ends meeting "m" while connection "c" sits
in the meeting's Session Registry set.  The end succeeds, but "c" is
still registered afterwards and no notification is emitted. -/
theorem end_meeting_registry_untouched_cex :
    (endMeetingSys ⟨⟨[⟨"m", 1, "t", "active", 10, none⟩], [⟨"m", 2, none, none⟩]⟩,
        ⟨["c"], [("m", ["c"])], [("m", ["c"])]⟩⟩ 1 "m" 5).1.1 = .ok ∧
    "c" ∈ (getRoom (endMeetingSys ⟨⟨[⟨"m", 1, "t", "active", 10, none⟩],
        [⟨"m", 2, none, none⟩]⟩,
        ⟨["c"], [("m", ["c"])], [("m", ["c"])]⟩⟩ 1 "m" 5).1.2.sig.rooms "m").getD [] ∧
    (endMeetingSys ⟨⟨[⟨"m", 1, "t", "active", 10, none⟩], [⟨"m", 2, none, none⟩]⟩,
        ⟨["c"], [("m", ["c"])], [("m", ["c"])]⟩⟩ 1 "m" 5).2 = [] := by
  decide

/-- C7 (amended): when the host ends a meeting, the meeting's status is
set to ended in the directory and every live participant record of the
meeting is marked left — but the Session Registry is left untouched and
no connection is notified: the route handler only issues the two SQL
updates and has no access to the socket layer. -/
theorem endMeeting_directory_only (sys : SysState) (requesterId : Nat)
    (meetingId : String) (now : Nat) (mt : Meeting)
    (hfind : findMeeting sys.db meetingId = some mt)
    (hhost : mt.hostId = requesterId) :
    (endMeetingSys sys requesterId meetingId now).1.1 = .ok ∧
    (∀ x ∈ (endMeetingSys sys requesterId meetingId now).1.2.db.meetings,
      x.id = meetingId → x.status = "ended") ∧
    (∀ p ∈ (endMeetingSys sys requesterId meetingId now).1.2.db.participants,
      p.meetingId = meetingId → p.leftAt ≠ none) ∧
    (endMeetingSys sys requesterId meetingId now).1.2.sig = sys.sig ∧
    (endMeetingSys sys requesterId meetingId now).2 = [] := by
  have hbeq : (mt.hostId == requesterId) = true := by simpa using hhost
  have hE := endMeeting_some sys.db requesterId meetingId now mt hfind
  rw [if_pos hbeq] at hE
  refine ⟨?_, ?_, ?_, rfl, rfl⟩
  · show (endMeeting sys.db requesterId meetingId now).1 = .ok
    rw [hE]
  · intro x hx hxid
    have hx' : x ∈ (endMeeting sys.db requesterId meetingId now).2.meetings := hx
    rw [hE] at hx'
    rcases List.mem_map.1 hx' with ⟨y, hy, rfl⟩
    by_cases hid : (y.id == meetingId) = true
    · simp [hid]
    · rw [if_neg hid] at hxid ⊢
      exact absurd hxid (by simpa using hid)
  · intro p hp hpid
    have hp' : p ∈ (endMeeting sys.db requesterId meetingId now).2.participants := hp
    rw [hE] at hp'
    rcases List.mem_map.1 hp' with ⟨q, hq, rfl⟩
    by_cases hcond : (q.meetingId == meetingId && q.leftAt.isNone) = true
    · rw [if_pos hcond]
      simp
    · rw [if_neg hcond] at hpid ⊢
      intro habs
      exact hcond (by simp [hpid, habs])

/-- Witness for `endMeeting_directory_only`: host 3 ends meeting "m". -/
theorem endMeeting_directory_only_witness :
    (endMeetingSys ⟨⟨[⟨"m", 3, "t", "active", 10, none⟩], [⟨"m", 4, none, none⟩]⟩,
        ⟨["d"], [("m", ["d"])], [("m", ["d"])]⟩⟩ 3 "m" 9).1.1 = .ok :=
  (endMeeting_directory_only ⟨⟨[⟨"m", 3, "t", "active", 10, none⟩],
      [⟨"m", 4, none, none⟩]⟩, ⟨["d"], [("m", ["d"])], [("m", ["d"])]⟩⟩ 3 "m" 9
      ⟨"m", 3, "t", "active", 10, none⟩ (by decide) rfl).1

theorem kickParticipant_none (db : DB) (requesterId : Nat) (meetingId : String)
    (targetUserId : Nat) (now : Nat) (hfind : findMeeting db meetingId = none) :
    kickParticipant db requesterId meetingId targetUserId now = (.notFound, db) := by
  unfold kickParticipant
  rw [hfind]

theorem kickParticipant_some (db : DB) (requesterId : Nat) (meetingId : String)
    (targetUserId : Nat) (now : Nat) (mt : Meeting)
    (hfind : findMeeting db meetingId = some mt) :
    kickParticipant db requesterId meetingId targetUserId now =
      (if mt.hostId == requesterId then
        (.ok,
         { db with participants := db.participants.map (fun p =>
             if p.meetingId == meetingId && p.userId == targetUserId then
               { p with leftAt := some now }
             else p) })
       else (.notHost, db)) := by
  unfold kickParticipant
  rw [hfind]

/-- C8: a kick succeeds only when the requester's identity equals the
meeting's host id as re-read from the meetings table at kick time, and
a kick by a non-host yields the 403 not-host outcome and leaves the
whole system state — participant records and registry membership —
unchanged. -/
theorem kick_requires_host (sys : SysState) (requesterId : Nat) (meetingId : String)
    (targetUserId : Nat) (now : Nat) :
    ((kickSys sys requesterId meetingId targetUserId now).1 = .ok →
      ∃ mt, findMeeting sys.db meetingId = some mt ∧ mt.hostId = requesterId) ∧
    (∀ mt, findMeeting sys.db meetingId = some mt → mt.hostId ≠ requesterId →
      (kickSys sys requesterId meetingId targetUserId now).1 = .notHost ∧
      (kickSys sys requesterId meetingId targetUserId now).2 = sys) := by
  constructor
  · intro hok
    cases hfm : findMeeting sys.db meetingId with
    | none =>
      have hnf : (kickSys sys requesterId meetingId targetUserId now).1 = .notFound := by
        show (kickParticipant sys.db requesterId meetingId targetUserId now).1 = _
        rw [kickParticipant_none sys.db requesterId meetingId targetUserId now hfm]
      rw [hnf] at hok
      exact absurd hok (by simp)
    | some mt =>
      by_cases hh : (mt.hostId == requesterId) = true
      · exact ⟨mt, rfl, by simpa using hh⟩
      · have hnh : (kickSys sys requesterId meetingId targetUserId now).1 = .notHost := by
          show (kickParticipant sys.db requesterId meetingId targetUserId now).1 = _
          rw [kickParticipant_some sys.db requesterId meetingId targetUserId now mt hfm,
            if_neg hh]
        rw [hnh] at hok
        exact absurd hok (by simp)
  · intro mt hfm hne
    have hh : ¬ ((mt.hostId == requesterId) = true) := by simpa using hne
    constructor
    · show (kickParticipant sys.db requesterId meetingId targetUserId now).1 = _
      rw [kickParticipant_some sys.db requesterId meetingId targetUserId now mt hfm,
        if_neg hh]
    · show (⟨(kickParticipant sys.db requesterId meetingId targetUserId now).2,
          sys.sig⟩ : SysState) = sys
      rw [kickParticipant_some sys.db requesterId meetingId targetUserId now mt hfm,
        if_neg hh]

/-- Witness for `kick_requires_host`: participant 2, who is not the host
of meeting "m" (host 1), tries to kick and nothing changes. -/
theorem kick_requires_host_witness :
    (kickSys ⟨⟨[⟨"m", 1, "t", "active", 10, none⟩], [⟨"m", 2, none, none⟩]⟩, ⟨[], [], []⟩⟩
        2 "m" 2 7).1 = .notHost ∧
    (kickSys ⟨⟨[⟨"m", 1, "t", "active", 10, none⟩], [⟨"m", 2, none, none⟩]⟩, ⟨[], [], []⟩⟩
        2 "m" 2 7).2
      = ⟨⟨[⟨"m", 1, "t", "active", 10, none⟩], [⟨"m", 2, none, none⟩]⟩, ⟨[], [], []⟩⟩ :=
  (kick_requires_host ⟨⟨[⟨"m", 1, "t", "active", 10, none⟩], [⟨"m", 2, none, none⟩]⟩,
      ⟨[], [], []⟩⟩ 2 "m" 2 7).2 ⟨"m", 1, "t", "active", 10, none⟩ (by decide) (by decide)

end Confidex
